import Mathlib

/-!
Verification of the bbsfw connection-admission gateway.

This file gives a shallow embedding of the admission pipeline of the
bbsfw repository (ipfilter.js, geoip.js, encoding-detector.js, ssh.js,
the server supervisor and the proxy connection handler) and proves or
refutes the frozen claims about it.

Modelling conventions:
- IP addresses and CIDR entries are `List Char` (JS strings).
- JS numbers that flow through `parseInt` / bitwise operators are
  modelled as `Option Int`, where `none` plays the role of `NaN`;
  the 32-bit coercions `ToInt32` / `ToUint32` are explicit.
- JS `Map` objects are association lists (`List (key × value)`) with
  insertion-order-preserving `set` and `delete`, as in the source.
- `Date.now()` timestamps and durations are `Int` milliseconds.
- Absent JS object fields are modelled by `Option` or by the default
  the caller applies (`filterResult.whitelisted || false`).
-/

/-! ## Address utilities (src/ipfilter.js, src/geoip.js) -/

/-- True when the string begins with the IPv4-mapped marker `::ffff:`
(case-insensitively), i.e. when the regex `/^::ffff:/i` matches. -/
def startsWithMapped (s : List Char) : Bool :=
  match s with
  | c1 :: c2 :: c3 :: c4 :: c5 :: c6 :: c7 :: _ =>
    c1 == ':' && c2 == ':' &&
    (c3 == 'f' || c3 == 'F') && (c4 == 'f' || c4 == 'F') &&
    (c5 == 'f' || c5 == 'F') && (c6 == 'f' || c6 == 'F') &&
    c7 == ':'
  | _ => false

/-- `ipAddress.replace(/^::ffff:/i, '')`: drop a leading `::ffff:`
(7 characters) when present, otherwise return the string unchanged. -/
def cleanIp (s : List Char) : List Char :=
  if startsWithMapped s then s.drop 7 else s

/-- `needle` occurs at the start of `hay` (character-wise equality). -/
def seqStartsWith : List Char → List Char → Bool
  | [], _ => true
  | _ :: _, [] => false
  | n :: ns, h :: hs => n == h && seqStartsWith ns hs

/-- JS `String.prototype.includes`: `needle` occurs contiguously in `hay`. -/
def seqContains (needle : List Char) : List Char → Bool
  | [] => seqStartsWith needle []
  | h :: hs => seqStartsWith needle (h :: hs) || seqContains needle hs

/-- Character-wise upper-casing (JS `toUpperCase`, ASCII fragment). -/
def jsToUpperChars (s : List Char) : List Char := s.map Char.toUpper

/-- Character-wise lower-casing (JS `toLowerCase`, ASCII fragment). -/
def jsToLowerChars (s : List Char) : List Char := s.map Char.toLower

/-- JS `String.prototype.split(sep)`: always returns at least one
(possibly empty) segment. -/
def jsSplit (sep : Char) : List Char → List (List Char)
  | [] => [[]]
  | c :: rest =>
    let r := jsSplit sep rest
    if c == sep then [] :: r
    else
      match r with
      | h :: t => (c :: h) :: t
      | [] => [[c]]

/-! ## JS numeric model

A JS number entering the `ipToInt` / mask computation is either a real
integer or `NaN`; we model it as `Option Int` with `none` for `NaN`.
(Float rounding of integers beyond 2^53 is outside the model; every
value the claims exercise is far smaller.) -/

/-- Wrap an integer into the signed 32-bit range (JS `ToInt32`). -/
def toSigned32 (z : Int) : Int :=
  let m := z.emod 4294967296
  if m < 2147483648 then m else m - 4294967296

/-- JS `ToInt32` on a possibly-NaN number: `ToInt32(NaN) = 0`. -/
def jsToInt32 (x : Option Int) : Int :=
  match x with
  | none => 0
  | some v => toSigned32 v

/-- JS `ToUint32` on a possibly-NaN number: `ToUint32(NaN) = 0`. -/
def jsToUint32 (x : Option Int) : Nat :=
  match x with
  | none => 0
  | some v => (v.emod 4294967296).toNat

/-- JS `a << 8` (used in `ipToInt`): operands pass through `ToInt32`,
the result is again a signed 32-bit integer, never NaN. -/
def jsShl8 (a : Option Int) : Option Int :=
  some (toSigned32 (jsToInt32 a * 256))

/-- JS `+` on numbers; NaN absorbs. -/
def jsAdd (a b : Option Int) : Option Int :=
  match a, b with
  | some x, some y => some (x + y)
  | _, _ => none

/-- JS `-` on numbers; NaN absorbs. -/
def jsSub (a b : Option Int) : Option Int :=
  match a, b with
  | some x, some y => some (x - y)
  | _, _ => none

/-- JS `parseInt(s, 10)`: skip leading whitespace, optional sign,
longest digit run; `none` (NaN) when no digit is read. -/
def jsParseInt10 (s : List Char) : Option Int :=
  let s := s.dropWhile (fun c => c == ' ' || c == '\t' || c == '\n' || c == '\r')
  let (neg, s) :=
    match s with
    | '-' :: r => (true, r)
    | '+' :: r => (false, r)
    | _ => (false, s)
  let ds := s.takeWhile Char.isDigit
  if ds.isEmpty then none
  else
    let v : Nat := ds.foldl (fun a c => a * 10 + (c.toNat - 48)) 0
    some (if neg then -(v : Int) else (v : Int))

/-- `ipToInt` (src/ipfilter.js lines 12-16): `null` when the string does
not have exactly four dot-separated parts, otherwise
`parts.reduce((acc, part) => (acc << 8) + parseInt(part, 10), 0) >>> 0`. -/
def ipToInt (ip : List Char) : Option Nat :=
  let parts := jsSplit '.' ip
  if parts.length ≠ 4 then none
  else some (jsToUint32 (parts.foldl (fun acc p => jsAdd (jsShl8 acc) (jsParseInt10 p)) (some 0)))

/-- The mask `(~0 << (32 - parseInt(bits, 10))) >>> 0` of
src/ipfilter.js line 37.  The JS shift count is `ToUint32(32 - N) & 31`,
so `N = 0` (and NaN bits) yield shift count 0 and an all-ones mask. -/
def cidrMask (bits : List Char) : Nat :=
  let sh := jsToUint32 (jsSub (some 32) (jsParseInt10 bits)) % 32
  ((-(2 : Int) ^ sh).emod 4294967296).toNat

/-- `ipMatchesCIDR` (src/ipfilter.js lines 21-39). -/
def ipMatchesCIDR (ip cidr : List Char) : Bool :=
  let parts := jsSplit '/' cidr
  let range := parts.headD []
  match (parts.drop 1).head? with
  | none => ip == cidr
  | some b =>
    if b.isEmpty then ip == cidr
    else
      match ipToInt ip, ipToInt range with
      | some ipInt, some rangeInt =>
        let mask := cidrMask b
        (ipInt &&& mask) == (rangeInt &&& mask)
      | _, _ => ip == cidr

/-! ## IP filter state (src/ipfilter.js, class IPFilter) -/

/-- `Map` lookup (`Map.prototype.get`). -/
def mapGet {α : Type} (m : List (List Char × α)) (k : List Char) : Option α :=
  match m.find? (fun p => p.1 == k) with
  | some p => some p.2
  | none => none

/-- `Map.prototype.set`: update in place or append, preserving order. -/
def mapSet {α : Type} (m : List (List Char × α)) (k : List Char) (v : α) :
    List (List Char × α) :=
  match m with
  | [] => [(k, v)]
  | (k', v') :: rest =>
    if k' == k then (k', v) :: rest else (k', v') :: mapSet rest k v

/-- `Map.prototype.delete`. -/
def mapDelete {α : Type} (m : List (List Char × α)) (k : List Char) :
    List (List Char × α) :=
  m.filter (fun p => !(p.1 == k))

/-- Rate-limit and temporary-block configuration fields of the filter
(src/config.js). -/
structure FilterConfig where
  rateLimitEnabled : Bool
  maxConnectionsPerWindow : Int
  rateLimitWindowMs : Int
  rateLimitBlockDurationMs : Int
deriving DecidableEq

/-- An entry of `blockedIPs` (src/ipfilter.js lines 256-260). -/
structure BlockInfo where
  blockedUntil : Int
  reason : String
  blockedAt : Int
deriving DecidableEq

/-- The mutable state of an `IPFilter` instance. -/
structure FilterState where
  whitelist : List (List Char)
  blocklist : List (List Char)
  connectionAttempts : List (List Char × List Int)
  blockedIPs : List (List Char × BlockInfo)
deriving DecidableEq

/-- `isIPWhitelisted` (src/ipfilter.js lines 156-183): exact canonical
match, exact original-form match, then a CIDR scan. An empty string is
falsy in JS, hence rejected by the guard. -/
def isIPWhitelisted (wl : List (List Char)) (ip : List Char) : Bool :=
  if ip.isEmpty then false
  else
    let clean := cleanIp ip
    wl.contains clean || wl.contains ip || wl.any (fun e => ipMatchesCIDR clean e)

/-- `isIPInBlocklist` (src/ipfilter.js lines 185-212), same shape. -/
def isIPInBlocklist (bl : List (List Char)) (ip : List Char) : Bool :=
  if ip.isEmpty then false
  else
    let clean := cleanIp ip
    bl.contains clean || bl.contains ip || bl.any (fun e => ipMatchesCIDR clean e)

/-- `blockIP` (src/ipfilter.js lines 252-264). -/
def blockIP (st : FilterState) (now : Int) (ipAddress : List Char)
    (durationMs : Int) (reason : String) : FilterState :=
  let clean := cleanIp ipAddress
  let info : BlockInfo :=
    { blockedUntil := now + durationMs, reason := reason, blockedAt := now }
  { st with blockedIPs := mapSet st.blockedIPs clean info }

/-- `recordConnectionAttempt` (src/ipfilter.js lines 214-250): append
`now`, keep only timestamps strictly inside the window, store the pruned
list, and trip the rate limit when the remaining count strictly exceeds
`maxConnectionsPerWindow`. Returns the `true`/falsy result and the new
state. -/
def recordConnectionAttempt (cfg : FilterConfig) (st : FilterState)
    (now : Int) (ipAddress : List Char) : Bool × FilterState :=
  if !cfg.rateLimitEnabled then (false, st)
  else if ipAddress.isEmpty then (false, st)
  else
    let clean := cleanIp ipAddress
    let attempts := ((mapGet st.connectionAttempts clean).getD []) ++ [now]
    let windowStart := now - cfg.rateLimitWindowMs
    let recentAttempts := attempts.filter (fun time => windowStart < time)
    let st := { st with connectionAttempts := mapSet st.connectionAttempts clean recentAttempts }
    if cfg.maxConnectionsPerWindow < (recentAttempts.length : Int) then
      (true, blockIP st now clean cfg.rateLimitBlockDurationMs
        ("Rate limit exceeded: " ++ toString recentAttempts.length ++
          " connections in " ++ toString cfg.rateLimitWindowMs ++ "ms"))
    else (false, st)

/-- Result object of `isIPBlocked`; absent fields are `none`. -/
structure BlockCheck where
  blocked : Bool
  reason : Option String
  temporary : Option Bool
deriving DecidableEq

/-- `isIPBlocked` (src/ipfilter.js lines 266-291): the temporary-block
map is consulted first; an expired entry is deleted; only then is the
permanent blocklist consulted. -/
def isIPBlocked (st : FilterState) (now : Int) (ipAddress : List Char) :
    BlockCheck × FilterState :=
  if ipAddress.isEmpty then (⟨false, none, none⟩, st)
  else
    let clean := cleanIp ipAddress
    let checkBlocklist := fun (st : FilterState) =>
      if isIPInBlocklist st.blocklist ipAddress then
        ((⟨true, some "IP in blocklist", some false⟩ : BlockCheck), st)
      else ((⟨false, none, none⟩ : BlockCheck), st)
    match mapGet st.blockedIPs clean with
    | some blockInfo =>
      if now < blockInfo.blockedUntil then
        (⟨true, some blockInfo.reason, some true⟩, st)
      else
        checkBlocklist { st with blockedIPs := mapDelete st.blockedIPs clean }
    | none => checkBlocklist st

/-- Result object of `shouldAllowConnection`; a missing `whitelisted`
field is `false` (the caller applies `|| false`), a missing `reason`
is `none`. -/
structure AllowResult where
  allowed : Bool
  whitelisted : Bool
  reason : Option String
deriving DecidableEq

/-- `shouldAllowConnection` (src/ipfilter.js lines 293-320). -/
def shouldAllowConnection (cfg : FilterConfig) (st : FilterState)
    (now : Int) (ipAddress : List Char) : AllowResult × FilterState :=
  if ipAddress.isEmpty then (⟨false, false, some "Invalid IP address"⟩, st)
  else if isIPWhitelisted st.whitelist ipAddress then (⟨true, true, none⟩, st)
  else
    let bc := isIPBlocked st now ipAddress
    if bc.1.blocked then (⟨false, false, bc.1.reason⟩, bc.2)
    else
      let rec_ := recordConnectionAttempt cfg bc.2 now ipAddress
      if rec_.1 then (⟨false, false, some "Rate limit exceeded"⟩, rec_.2)
      else (⟨true, false, none⟩, rec_.2)

/-- Store a pruned attempt list for a key (the `connectionAttempts.set`
effect of `recordConnectionAttempt`). -/
def setAttempts (st : FilterState) (k : List Char) (v : List Int) : FilterState :=
  { st with connectionAttempts := mapSet st.connectionAttempts k v }

/-- Run a sequence of `shouldAllowConnection` calls for one IP at the
given timestamps, collecting the results. -/
def runFilter (cfg : FilterConfig) (ipAddress : List Char) :
    FilterState → List Int → FilterState × List AllowResult
  | st, [] => (st, [])
  | st, t :: ts =>
    let r := shouldAllowConnection cfg st t ipAddress
    let rest := runFilter cfg ipAddress r.2 ts
    (rest.1, r.1 :: rest.2)

/-! ## Encoding detector (src/encoding-detector.js) and backend dial -/

/-- Application-level configuration fields referenced by the encoding
detector, the proxy and the SSH server (src/config.js and the
`config.encodingDetection` / `config.backendPortUTF8` /
`config.backendPortCP437` accesses in src/encoding-detector.js; the
shipped config.js never sets the last three, leaving them undefined,
i.e. `encodingDetection = false` at runtime). -/
structure AppConfig where
  backendPort : Int
  encodingDetection : Bool
  backendPortUTF8 : Int
  backendPortCP437 : Int
deriving DecidableEq

/-- Environment lookup (`env[varName]`) over the SSH-provided pairs. -/
def envLookup (env : List (String × String)) (k : String) : Option String :=
  match env.find? (fun p => p.1 == k) with
  | some p => some p.2
  | none => none

/-- `value.toUpperCase().includes('UTF-8') || ...includes('UTF8')`. -/
def hasUTF8Indicator (value : String) : Bool :=
  seqContains "UTF-8".data (jsToUpperChars value.data) ||
    seqContains "UTF8".data (jsToUpperChars value.data)

/-- `detectFromSSHEnvironment` (src/encoding-detector.js lines 13-37):
scan `LANG`, `LC_ALL`, `LC_CTYPE`; any UTF-8 indicator yields `utf8`,
otherwise `cp437`. -/
def detectFromSSHEnvironment (env : List (String × String)) : String :=
  let langVars := ["LANG", "LC_ALL", "LC_CTYPE"]
  if langVars.any (fun v =>
      match envLookup env v with
      | some value => hasUTF8Indicator value
      | none => false) then "utf8"
  else "cp437"

/-- The UTF-8 terminal-type list of src/encoding-detector.js. -/
def utf8Terminals : List String :=
  ["xterm-256color", "xterm-color", "xterm", "screen-256color", "screen",
   "rxvt-unicode", "konsole", "gnome", "linux", "vt220", "vt100"]

/-- The CP437 terminal-type list of src/encoding-detector.js. -/
def cp437Terminals : List String :=
  ["ansi", "ansi-bbs", "ansi-mono", "ansi-color", "pcansi", "scoansi"]

/-- `detectFromTerminalType` (src/encoding-detector.js lines 44-95):
substring match of the lower-cased terminal type against the UTF-8
list, then the CP437 list, defaulting to `cp437`. -/
def detectFromTerminalType (termType : String) : String :=
  if termType.data.isEmpty then "cp437"
  else
    let term := jsToLowerChars termType.data
    if utf8Terminals.any (fun t => seqContains t.data term) then "utf8"
    else if cp437Terminals.any (fun t => seqContains t.data term) then "cp437"
    else "cp437"

/-- `getBackendPortForEncoding` (src/encoding-detector.js lines 113-126). -/
def getBackendPortForEncoding (encoding : String) (config : AppConfig) : Int :=
  if !config.encodingDetection then config.backendPort
  else if encoding == "utf8" then config.backendPortUTF8
  else config.backendPortCP437

/-- The port the SSH shell handler dials for its backend connection:
src/ssh.js line 121 is `backendSocket.connect(config.backendPort,
config.backendHost, ...)`, unconditionally; the shell handler never
consults the encoding detector. -/
def sshShellBackendPort (config : AppConfig) : Int :=
  config.backendPort

/-! ## Geo filter (src/geoip.js, ProxyConnection.shouldBlockConnection) -/

/-- `GeoIPLookup.lookup` result object: `countryCode` is
`result.country.iso_code || null`. -/
structure GeoInfo where
  countryCode : Option String
  countryName : Option String
deriving DecidableEq

/-- `ProxyConnection.shouldBlockConnection` (proxy handler lines
112-145), with the GeoIP reader abstracted into its enabled flag and
the lookup result for the connection's IP: not enabled → `false`;
unknown country → `blockUnknownCountries`; otherwise membership of the
upper-cased code in `blockedCountries` (an empty configured list means
`false`). -/
def shouldBlockConnection (geoEnabled : Bool) (geoInfo : Option GeoInfo)
    (blockUnknownCountries : Bool) (blockedCountries : List String) : Bool :=
  if !geoEnabled then false
  else
    match geoInfo with
    | none => blockUnknownCountries
    | some g =>
      match g.countryCode with
      | none => blockUnknownCountries
      | some code =>
        if blockedCountries.length > 0 then
          blockedCountries.contains (String.mk (jsToUpperChars code.data))
        else false

/-! ## Supervisor (BBSFirewall.handleNewConnection) -/

/-- What became of an accepted TCP socket. `atCap` means it was ended
before `handleConnection` ran; the other two mean `handleConnection`
was invoked and the proxy's admission pipeline allowed or rejected it. -/
inductive ConnResult where
  | atCap
  | filterRejected
  | admitted
deriving DecidableEq

/-- `BBSFirewall.handleNewConnection`: when `activeConnections >=
maxConnections` the socket is ended immediately; otherwise the counter
is incremented and only then `handleConnection` (which runs the IP and
geo admission checks) is called. `filterAllows` abstracts the proxy's
admission verdict. -/
def acceptConnection (maxConnections active : Int) (filterAllows : Bool) :
    Int × ConnResult :=
  if active ≥ maxConnections then (active, ConnResult.atCap)
  else
    let active' := active + 1
    if filterAllows then (active', ConnResult.admitted)
    else (active', ConnResult.filterRejected)

/-- Supervisor state: the connection counter plus the number of sockets
that were handed to `handleConnection` (or rejected by it) and whose
single `close` event has not yet fired. Every such socket registered
exactly one `close` listener that decrements the counter. -/
structure SupState where
  active : Int
  pendingClose : Nat
deriving DecidableEq

/-- Effect of one incoming connection on the supervisor state. -/
def stepArrive (maxConnections : Int) (s : SupState) (filterAllows : Bool) :
    SupState :=
  let r := acceptConnection maxConnections s.active filterAllows
  { active := r.1,
    pendingClose := if r.2 = ConnResult.atCap then s.pendingClose else s.pendingClose + 1 }

/-- Reachable supervisor states: start at zero; any number of incoming
connections; a `close` event fires only for a socket that is still
pending (Node fires `close` exactly once per socket) and decrements
the counter. -/
inductive Reach (maxConnections : Int) : SupState → Prop where
  | init : Reach maxConnections ⟨0, 0⟩
  | arrive : ∀ s allows, Reach maxConnections s →
      Reach maxConnections (stepArrive maxConnections s allows)
  | close : ∀ s, Reach maxConnections s → 0 < s.pendingClose →
      Reach maxConnections ⟨s.active - 1, s.pendingClose - 1⟩

/-! ## SSH shell bridge data handlers (src/ssh.js lines 134-177) -/

/-- The `stream.on('data')` handler of the SSH shell bridge: the byte
counter is bumped first; if the backend is not writable or destroyed
the chunk is dropped (nothing written, nothing buffered), otherwise it
is written to the backend. The pause/resume backpressure dance affects
only timing, not what is written, and is elided. -/
def sshStreamDataHandler (bytesFromClient : Nat) (written : List (List Nat))
    (backendWritable backendDestroyed : Bool) (data : List Nat) :
    Nat × List (List Nat) :=
  let bytesFromClient := bytesFromClient + data.length
  if !backendWritable || backendDestroyed then (bytesFromClient, written)
  else (bytesFromClient, written ++ [data])

/-- The mirror-image `backendSocket.on('data')` handler (src/ssh.js
lines 157-177). -/
def backendSocketDataHandler (bytesFromBackend : Nat) (written : List (List Nat))
    (streamWritable streamDestroyed : Bool) (data : List Nat) :
    Nat × List (List Nat) :=
  let bytesFromBackend := bytesFromBackend + data.length
  if !streamWritable || streamDestroyed then (bytesFromBackend, written)
  else (bytesFromBackend, written ++ [data])

/-! ## Helper lemmas -/

/-- A string that does not begin with the `::ffff:` marker is unchanged
by `cleanIp`. -/
theorem cleanIp_eq_self_of_no_marker {t : List Char}
    (h : startsWithMapped t = false) : cleanIp t = t := by
  simp [cleanIp, h]

/-! ## C2: whitelisted IPs bypass all checks and mutate no state -/

/-- C2: for every whitelisted IP, `shouldAllowConnection` returns
`{ allowed: true, whitelisted: true }` and the filter state is
returned entirely unchanged — no connection attempt is recorded and
the temporary-block map is untouched. -/
theorem whitelisted_bypass_leaves_state (cfg : FilterConfig)
    (st : FilterState) (now : Int) (ip : List Char)
    (hw : isIPWhitelisted st.whitelist ip = true) :
    shouldAllowConnection cfg st now ip = (⟨true, true, none⟩, st) := by
  cases hip : ip.isEmpty with
  | true => simp [isIPWhitelisted, hip] at hw
  | false => simp [shouldAllowConnection, hip, hw]

/-- C2 witness: a concrete whitelisted IP. -/
theorem whitelisted_bypass_leaves_state_witness :
    isIPWhitelisted ["10.0.0.1".data] "10.0.0.1".data = true ∧
    shouldAllowConnection ⟨true, 10, 60000, 300000⟩
        ⟨["10.0.0.1".data], [], [], []⟩ 0 "10.0.0.1".data =
      (⟨true, true, none⟩, ⟨["10.0.0.1".data], [], [], []⟩) :=
  ⟨by decide,
   whitelisted_bypass_leaves_state ⟨true, 10, 60000, 300000⟩
     ⟨["10.0.0.1".data], [], [], []⟩ 0 "10.0.0.1".data (by decide)⟩

/-! ## C6: blocklist vs. temporary-block ordering -/

/-- C6 counterexample: an IP that is both in the permanent blocklist
and under a still-active temporary block. `shouldAllowConnection`
returns the stored temporary reason, not `"IP in blocklist"`, because
`isIPBlocked` consults the temporary map first — refuting the claimed
ordering at this concrete input. -/
theorem blocklist_reason_shadowed_counterexample :
    isIPInBlocklist ["9.9.9.9".data] "9.9.9.9".data = true ∧
    isIPWhitelisted ([] : List (List Char)) "9.9.9.9".data = false ∧
    (shouldAllowConnection ⟨true, 10, 60000, 300000⟩
        ⟨[], ["9.9.9.9".data], [], [("9.9.9.9".data, ⟨100, "tempreason", 0⟩)]⟩
        50 "9.9.9.9".data).1 = ⟨false, false, some "tempreason"⟩ ∧
    (shouldAllowConnection ⟨true, 10, 60000, 300000⟩
        ⟨[], ["9.9.9.9".data], [], [("9.9.9.9".data, ⟨100, "tempreason", 0⟩)]⟩
        50 "9.9.9.9".data).1.reason ≠ some "IP in blocklist" := by
  decide

/-- C6 (amended): the temporary-block map is checked before the
permanent blocklist. For a blocklisted, non-whitelisted IP the call is
always denied, with reason `"IP in blocklist"` exactly when no
still-active temporary entry exists (an expired entry is purged first);
an active temporary entry yields its stored reason instead. -/
theorem blocklist_denied_after_temp_check (cfg : FilterConfig)
    (st : FilterState) (now : Int) (ip : List Char)
    (hip : ip.isEmpty = false)
    (hw : isIPWhitelisted st.whitelist ip = false)
    (hb : isIPInBlocklist st.blocklist ip = true) :
    ((∀ info, mapGet st.blockedIPs (cleanIp ip) = some info →
        info.blockedUntil ≤ now) →
      (shouldAllowConnection cfg st now ip).1 =
        ⟨false, false, some "IP in blocklist"⟩) ∧
    (∀ info, mapGet st.blockedIPs (cleanIp ip) = some info →
      now < info.blockedUntil →
      (shouldAllowConnection cfg st now ip).1 =
        ⟨false, false, some info.reason⟩) := by
  constructor
  · intro hexp
    cases hblk : mapGet st.blockedIPs (cleanIp ip) with
    | none => simp [shouldAllowConnection, isIPBlocked, hip, hw, hblk, hb]
    | some info =>
      have hnl : ¬ now < info.blockedUntil := Int.not_lt.mpr (hexp info hblk)
      simp [shouldAllowConnection, isIPBlocked, hip, hw, hblk, hb, hnl]
  · intro info hinfo hact
    simp [shouldAllowConnection, isIPBlocked, hip, hw, hinfo, hact]

/-- C6 witness: a blocklisted IP with no temporary entry is denied with
reason `"IP in blocklist"`. -/
theorem blocklist_denied_after_temp_check_witness :
    ("9.9.9.9".data.isEmpty = false) ∧
    isIPWhitelisted ([] : List (List Char)) "9.9.9.9".data = false ∧
    isIPInBlocklist ["9.9.9.9".data] "9.9.9.9".data = true ∧
    (shouldAllowConnection ⟨true, 10, 60000, 300000⟩
        ⟨[], ["9.9.9.9".data], [], []⟩ 50 "9.9.9.9".data).1 =
      ⟨false, false, some "IP in blocklist"⟩ :=
  ⟨by decide, by decide, by decide,
   (blocklist_denied_after_temp_check ⟨true, 10, 60000, 300000⟩
       ⟨[], ["9.9.9.9".data], [], []⟩ 50 "9.9.9.9".data
       (by decide) (by decide) (by decide)).1
     (by intro info h; simp [mapGet] at h)⟩

/-! ## C8: normalization idempotence -/

/-- C8 counterexample: stripping `::ffff:` is not idempotent on every
string — a doubled marker is stripped once per application. -/
theorem cleanIp_not_idempotent_counterexample :
    cleanIp (cleanIp "::ffff:::ffff:1.2.3.4".data) ≠
      cleanIp "::ffff:::ffff:1.2.3.4".data := by
  decide

/-- C8 (amended): normalization is idempotent on every string whose
once-stripped form does not itself begin with `::ffff:` — in
particular on every IPv4 and IPv4-mapped literal. -/
theorem cleanIp_idempotent_amended (s : List Char)
    (h : startsWithMapped (cleanIp s) = false) :
    cleanIp (cleanIp s) = cleanIp s :=
  cleanIp_eq_self_of_no_marker h

/-- C8 witness: idempotence at a concrete IPv4-mapped literal. -/
theorem cleanIp_idempotent_amended_witness :
    startsWithMapped (cleanIp "::ffff:1.2.3.4".data) = false ∧
    cleanIp (cleanIp "::ffff:1.2.3.4".data) = cleanIp "::ffff:1.2.3.4".data :=
  ⟨by decide, cleanIp_idempotent_amended "::ffff:1.2.3.4".data (by decide)⟩

/-! ## C9: geo-filter decision -/

/-- C9: the geo-blocking decision of the proxy: with the database not
loaded it is `false` for every lookup; with the database loaded and no
country determined it equals `blockUnknownCountries`; otherwise it is
`true` iff the upper-cased country code is in the configured
blocked-country list. -/
theorem geo_block_decision (geoInfo : Option GeoInfo) (blockUnknown : Bool)
    (blocked : List String) :
    (shouldBlockConnection false geoInfo blockUnknown blocked = false) ∧
    (geoInfo = none →
      shouldBlockConnection true geoInfo blockUnknown blocked = blockUnknown) ∧
    (∀ g, geoInfo = some g → g.countryCode = none →
      shouldBlockConnection true geoInfo blockUnknown blocked = blockUnknown) ∧
    (∀ g code, geoInfo = some g → g.countryCode = some code →
      (shouldBlockConnection true geoInfo blockUnknown blocked = true ↔
        blocked.contains (String.mk (jsToUpperChars code.data)) = true)) := by
  refine ⟨by simp [shouldBlockConnection], ?_, ?_, ?_⟩
  · intro h; subst h; simp [shouldBlockConnection]
  · intro g hg hc; subst hg; simp [shouldBlockConnection, hc]
  · intro g code hg hc; subst hg
    cases blocked with
    | nil => simp [shouldBlockConnection, hc]
    | cons b bs => simp [shouldBlockConnection, hc]

/-- C9 witness: a lower-case database code `cn` against the configured
list `["CN"]` with the database loaded. -/
theorem geo_block_decision_witness :
    shouldBlockConnection true (some ⟨some "cn", none⟩) false ["CN"] = true :=
  ((geo_block_decision (some ⟨some "cn", none⟩) false ["CN"]).2.2.2
      ⟨some "cn", none⟩ "cn" rfl rfl).mpr (by decide)

/-! ## C10: SSH bridge counts dropped chunks -/

/-- C10: in the SSH shell bridge, a data chunk arriving while the
opposite endpoint is not writable or destroyed is still added to that
direction's byte counter but is discarded: the list of chunks written
to the peer is unchanged (and the handler keeps no other buffer), in
both directions. -/
theorem ssh_bridge_counts_dropped_chunks (n : Nat) (w : List (List Nat))
    (writable destroyed : Bool) (data : List Nat)
    (h : writable = false ∨ destroyed = true) :
    sshStreamDataHandler n w writable destroyed data = (n + data.length, w) ∧
    backendSocketDataHandler n w writable destroyed data = (n + data.length, w) := by
  rcases h with h | h <;> subst h <;>
    constructor <;>
    simp [sshStreamDataHandler, backendSocketDataHandler]

/-- C10 witness: a 3-byte chunk against a non-writable peer is counted
and dropped. -/
theorem ssh_bridge_counts_dropped_chunks_witness :
    ((false = false ∨ false = true) ∧
      sshStreamDataHandler 0 [] false false [1, 2, 3] = (3, []) ∧
      backendSocketDataHandler 0 [] false false [1, 2, 3] = (3, [])) :=
  ⟨Or.inl rfl,
   (ssh_bridge_counts_dropped_chunks 0 [] false false [1, 2, 3] (Or.inl rfl)).1,
   (ssh_bridge_counts_dropped_chunks 0 [] false false [1, 2, 3] (Or.inl rfl)).2⟩

/-! ## C3: SSH shell backend port vs. encoding detection -/

/-- C3 counterexample: with UTF-8 environment and terminal hints the
detector does classify the session `utf8`, yet the SSH shell handler
dials `config.backendPort` (23 here), not `backendPortUTF8` (2424) —
refuting the claim at this concrete configuration. -/
theorem ssh_shell_port_counterexample :
    detectFromSSHEnvironment [("LANG", "en_US.UTF-8")] = "utf8" ∧
    detectFromTerminalType "xterm-256color" = "utf8" ∧
    sshShellBackendPort ⟨23, true, 2424, 2323⟩ = 23 ∧
    (⟨23, true, 2424, 2323⟩ : AppConfig).backendPortUTF8 = 2424 ∧
    sshShellBackendPort ⟨23, true, 2424, 2323⟩ ≠
      (⟨23, true, 2424, 2323⟩ : AppConfig).backendPortUTF8 := by
  decide

/-- C3 (amended): the encoding detector classifies UTF-8 environment
hints as `utf8`, and `getBackendPortForEncoding` would map `utf8` to
`backendPortUTF8` when encoding detection is enabled — but the SSH
shell handler never consults it and always dials the default
`config.backendPort`. -/
theorem ssh_shell_uses_default_port_amended (cfg : AppConfig)
    (env : List (String × String))
    (_hdet : detectFromSSHEnvironment env = "utf8") :
    sshShellBackendPort cfg = cfg.backendPort ∧
    (cfg.encodingDetection = true →
      getBackendPortForEncoding "utf8" cfg = cfg.backendPortUTF8) := by
  refine ⟨rfl, ?_⟩
  intro h
  simp [getBackendPortForEncoding, h]

/-- C3 witness: concrete UTF-8 environment and configuration. -/
theorem ssh_shell_uses_default_port_amended_witness :
    detectFromSSHEnvironment [("LANG", "en_US.UTF-8")] = "utf8" ∧
    (sshShellBackendPort ⟨23, true, 2424, 2323⟩ = 23 ∧
      ((⟨23, true, 2424, 2323⟩ : AppConfig).encodingDetection = true →
        getBackendPortForEncoding "utf8" ⟨23, true, 2424, 2323⟩ = 2424)) :=
  ⟨by decide,
   ssh_shell_uses_default_port_amended ⟨23, true, 2424, 2323⟩
     [("LANG", "en_US.UTF-8")] (by decide)⟩

/-! ## C4: when the connection counter is incremented -/

/-- C4 counterexample: a connection that the admission pipeline rejects
(`filterAllows = false`) still increments `activeConnections` from 0 to
1, because the increment happens before `handleConnection` runs the IP
and geo checks — refuting "a rejected connection never increments". -/
theorem counter_incremented_for_rejected_counterexample :
    acceptConnection 100 0 false = (1, ConnResult.filterRejected) ∧
    (1 : Int) ≠ 0 := by
  decide

/-- C4 (amended): the counter is incremented once for every connection
that passes the global-cap check, before the IP/geo admission checks
run — a filter-rejected connection increments it too; and at every
reachable state the counter equals the number of connections whose
single close callback (the sole decrement site) has not yet fired, so
each such connection is decremented exactly once on termination. -/
theorem counter_increment_before_admission :
    (∀ (maxConnections active : Int) (allows : Bool),
      active < maxConnections →
      (acceptConnection maxConnections active allows).1 = active + 1) ∧
    (∀ (maxConnections : Int) (s : SupState), Reach maxConnections s →
      s.active = (s.pendingClose : Int)) := by
  constructor
  · intro maxC active allows h
    have hn : ¬ active ≥ maxC := Int.not_le.mpr h
    cases allows <;> simp [acceptConnection, hn]
  · intro maxC s h
    induction h with
    | init => simp
    | arrive s allows _ ih =>
      by_cases hc : s.active ≥ maxC
      · have hc' : maxC ≤ (s.pendingClose : Int) := by omega
        simp [stepArrive, acceptConnection, ih, hc']
      · cases allows <;> simp [stepArrive, acceptConnection, hc] <;> omega
    | close s _ hp ih => simp; omega

/-- C4 witness: below the cap, a single (even rejected) arrival
increments the counter by one. -/
theorem counter_increment_before_admission_witness :
    (0 : Int) < 100 ∧ (acceptConnection 100 0 false).1 = 0 + 1 :=
  ⟨by decide, counter_increment_before_admission.1 100 0 false (by decide)⟩

/-! ## C5: the connection counter never exceeds the cap -/

/-- C5: at every reachable supervisor state `activeConnections` is
bounded by `maxConnections` (for a non-negative configured cap), and a
connection arriving when the count already equals `maxConnections` is
ended immediately with the counter unchanged and without being handed
to the admission pipeline (`ConnResult.atCap`). -/
theorem active_connections_bounded :
    (∀ (maxConnections : Int) (s : SupState), 0 ≤ maxConnections →
      Reach maxConnections s → s.active ≤ maxConnections) ∧
    (∀ (maxConnections active : Int) (allows : Bool),
      active = maxConnections →
      acceptConnection maxConnections active allows = (active, ConnResult.atCap)) := by
  constructor
  · intro maxC s h0 h
    induction h with
    | init => simpa using h0
    | arrive s allows _ ih =>
      by_cases hc : s.active ≥ maxC
      · simp [stepArrive, acceptConnection, hc, ih]
      · cases allows <;> simp [stepArrive, acceptConnection, hc] <;> omega
    | close s _ hp ih => simp; omega
  · intro maxC active allows h
    subst h
    simp [acceptConnection]

/-- C5 witness: one admitted arrival below cap 1 stays within the
bound, and an arrival at the cap is turned away untouched. -/
theorem active_connections_bounded_witness :
    ((0 : Int) ≤ 1 ∧ (stepArrive 1 ⟨0, 0⟩ true).active ≤ 1) ∧
    ((5 : Int) = 5 ∧ acceptConnection 5 5 true = (5, ConnResult.atCap)) :=
  ⟨⟨by decide,
    active_connections_bounded.1 1 (stepArrive 1 ⟨0, 0⟩ true) (by decide)
      (Reach.arrive ⟨0, 0⟩ true Reach.init)⟩,
   ⟨rfl, active_connections_bounded.2 5 5 true rfl⟩⟩

/-! ## C7: CIDR matching -/

/-- `jsSplit` on a separator-free string returns that single segment. -/
theorem jsSplit_no_sep {c : Char} {s : List Char}
    (h : ∀ a ∈ s, ¬ a = c) : jsSplit c s = [s] := by
  induction s with
  | nil => rfl
  | cons x xs ih =>
    have hx : ¬ x = c := h x (List.mem_cons_self x xs)
    have hx' : (x == c) = false := by simp [hx]
    simp [jsSplit, hx', ih (fun a ha => h a (List.mem_cons_of_mem x ha))]

/-- `jsSplit` on a string with exactly one separator occurrence yields
the two surrounding segments. -/
theorem jsSplit_single_sep {c : Char} {xs ys : List Char}
    (hx : ∀ a ∈ xs, ¬ a = c) (hy : ∀ a ∈ ys, ¬ a = c) :
    jsSplit c (xs ++ c :: ys) = [xs, ys] := by
  induction xs with
  | nil => simp [jsSplit, jsSplit_no_sep hy]
  | cons x xs ih =>
    have h1 : ¬ x = c := hx x (List.mem_cons_self x xs)
    have h1' : (x == c) = false := by simp [h1]
    simp [jsSplit, h1', ih (fun a ha => hx a (List.mem_cons_of_mem x ha))]

/-- Every value `jsToUint32` produces is below `2^32`. -/
theorem jsToUint32_lt (a : Option Int) : jsToUint32 a < 2 ^ 32 := by
  have h32 : (2 : Nat) ^ 32 = 4294967296 := by norm_num
  cases a with
  | none => simp [jsToUint32, h32]
  | some v =>
    have h1 : 0 ≤ v.emod 4294967296 := Int.emod_nonneg v (by norm_num)
    have h2 : v.emod 4294967296 < 4294967296 := Int.emod_lt_of_pos v (by norm_num)
    simp only [jsToUint32, h32]
    omega

/-- Every parsed IPv4 integer is below `2^32`. -/
theorem ipToInt_lt {ip : List Char} {x : Nat} (h : ipToInt ip = some x) :
    x < 2 ^ 32 := by
  unfold ipToInt at h
  by_cases hl : (jsSplit '.' ip).length ≠ 4
  · simp [hl] at h
  · simp only [hl, if_false] at h
    rw [← Option.some_inj.mp h]
    exact jsToUint32_lt _

/-- The JS mask of a parsed prefix length `N ≤ 32` is the high-bit mask
for shift count `(32 − N) % 32` — the `% 32` being the JS shift-count
wrap that makes `/0` produce an all-ones mask. -/
theorem cidrMask_eq {bits : List Char} {N : Nat}
    (h : jsParseInt10 bits = some (N : Int)) (hN : N ≤ 32) :
    cidrMask bits = 2 ^ 32 - 2 ^ ((32 - N) % 32) := by
  unfold cidrMask
  rw [h]
  have h1 : ((32 : Int) - (N : Int)).emod 4294967296 = ((32 - N : Nat) : Int) := by
    have e : ((32 : Int) - (N : Int)) = ((32 - N : Nat) : Int) := by
      push_cast [Nat.cast_sub hN]
      ring
    rw [e]
    exact Int.emod_eq_of_lt (by positivity) (by omega)
  simp only [jsSub, jsToUint32, h1, Int.toNat_natCast]
  set sh := (32 - N) % 32 with hsh
  have hsh31 : sh < 32 := Nat.mod_lt _ (by norm_num)
  have hple : (2 : Int) ^ sh ≤ 4294967296 := by
    calc (2 : Int) ^ sh ≤ 2 ^ 31 := by
          apply pow_le_pow_right₀ (by norm_num)
          omega
      _ ≤ 4294967296 := by norm_num
  have hp : (0 : Int) < 2 ^ sh := by positivity
  have h2 : (-(2 : Int) ^ sh).emod 4294967296 = 4294967296 - 2 ^ sh := by
    show (-(2 : Int) ^ sh) % 4294967296 = 4294967296 - 2 ^ sh
    have e1 : (-(2 : Int) ^ sh) = (4294967296 - 2 ^ sh) + 4294967296 * (-1) := by
      ring
    rw [e1, Int.add_mul_emod_self_left,
        Int.emod_eq_of_lt (by linarith) (by linarith)]
  rw [h2]
  have h3 : ((2 : Nat) ^ sh : Int) = (2 : Int) ^ sh := by push_cast; ring
  have h4 : (2 : Nat) ^ sh ≤ 2 ^ 32 := Nat.pow_le_pow_right (by norm_num) (by omega)
  have h5 : (2 : Nat) ^ 32 = 4294967296 := by norm_num
  omega

/-- Masking with the high-bit mask `2^32 − 2^sh` keeps exactly the bits
above position `sh` for values below `2^32`. -/
theorem land_high_mask (x sh : Nat) (hx : x < 2 ^ 32) (hsh : sh ≤ 32) :
    x &&& (2 ^ 32 - 2 ^ sh) = 2 ^ sh * (x / 2 ^ sh) := by
  have hm : (2 : Nat) ^ 32 - 2 ^ sh = 2 ^ sh * (2 ^ (32 - sh) - 1) := by
    rw [Nat.mul_comm, tsub_mul, one_mul, ← pow_add]
    congr 2
    omega
  apply Nat.eq_of_testBit_eq
  intro i
  rw [Nat.testBit_and, hm, Nat.testBit_mul_pow_two, Nat.testBit_mul_pow_two,
      Nat.testBit_two_pow_sub_one, ← Nat.shiftRight_eq_div_pow,
      Nat.testBit_shiftRight]
  by_cases h1 : sh ≤ i
  · by_cases h2 : i < 32
    · have e1 : i - sh < 32 - sh := by omega
      have e2 : sh + (i - sh) = i := by omega
      simp [h1, e1, e2]
    · have e1 : ¬ (i - sh < 32 - sh) := by omega
      have e2 : sh + (i - sh) = i := by omega
      have hxi : x.testBit i = false :=
        Nat.testBit_lt_two_pow
          (lt_of_lt_of_le hx (Nat.pow_le_pow_right (by norm_num) (by omega)))
      simp [h1, e1, e2, hxi]
  · simp [h1]

/-- Two values agree under the high-bit mask iff they agree on their
high bits (i.e. after discarding the low `sh` bits). -/
theorem land_high_mask_eq_iff (x y sh : Nat) (hx : x < 2 ^ 32)
    (hy : y < 2 ^ 32) (hsh : sh ≤ 32) :
    (x &&& (2 ^ 32 - 2 ^ sh) = y &&& (2 ^ 32 - 2 ^ sh)) ↔
      x / 2 ^ sh = y / 2 ^ sh := by
  rw [land_high_mask x sh hx hsh, land_high_mask y sh hy hsh]
  constructor
  · exact fun h => Nat.eq_of_mul_eq_mul_left (Nat.two_pow_pos sh) h
  · intro h; rw [h]

/-- Evaluating `ipMatchesCIDR` on a well-formed `range/bits` entry with
both addresses parsing reduces it to the masked comparison. -/
theorem ipMatchesCIDR_eval {ip range bits : List Char} {x y : Nat}
    (hip : ipToInt ip = some x) (hrg : ipToInt range = some y)
    (hr : ∀ a ∈ range, ¬ a = '/') (hb : ∀ a ∈ bits, ¬ a = '/')
    (hbne : bits ≠ []) :
    ipMatchesCIDR ip (range ++ '/' :: bits) =
      ((x &&& cidrMask bits) == (y &&& cidrMask bits)) := by
  have hbe : bits.isEmpty = false := by
    cases bits with
    | nil => exact absurd rfl hbne
    | cons b bs => rfl
  unfold ipMatchesCIDR
  rw [jsSplit_single_sep hr hb]
  simp [hbe, hip, hrg]

/-- C7 counterexample: a `/0` entry does not match every IPv4 address.
`1.2.3.4` is a valid IPv4 address and `0.0.0.0/0` a well-formed `/0`
entry, yet `ipMatchesCIDR` is `false`: the JS shift count `32 - 0`
wraps to `0`, producing an all-ones mask that compares all 32 bits. -/
theorem cidr_zero_matches_counterexample :
    ipToInt "1.2.3.4".data = some 16909060 ∧
    jsParseInt10 "0".data = some 0 ∧
    ipMatchesCIDR "1.2.3.4".data "0.0.0.0/0".data = false := by
  decide

/-- C7 (amended): for an IPv4 entry with prefix length `1 ≤ N ≤ 32`,
`ipMatchesCIDR` holds iff the two addresses agree on their high `N`
bits (low `32 − N` bits discarded); for `N = 0` the JS shift-count
wrap yields an all-ones mask, so the entry matches only addresses
whose full 32 bits equal the base. -/
theorem ipMatchesCIDR_high_bits_amended (ip range bits : List Char)
    (x y N : Nat)
    (hip : ipToInt ip = some x) (hrg : ipToInt range = some y)
    (hr : ∀ a ∈ range, ¬ a = '/') (hbs : ∀ a ∈ bits, ¬ a = '/')
    (hp : jsParseInt10 bits = some (N : Int)) (hN : N ≤ 32) :
    (1 ≤ N →
      (ipMatchesCIDR ip (range ++ '/' :: bits) = true ↔
        x / 2 ^ (32 - N) = y / 2 ^ (32 - N))) ∧
    (N = 0 →
      (ipMatchesCIDR ip (range ++ '/' :: bits) = true ↔ x = y)) := by
  have hbne : bits ≠ [] := by
    intro e
    subst e
    simp [jsParseInt10] at hp
  have hx := ipToInt_lt hip
  have hy := ipToInt_lt hrg
  rw [ipMatchesCIDR_eval hip hrg hr hbs hbne, cidrMask_eq hp hN]
  constructor
  · intro h1
    have hmod : (32 - N) % 32 = 32 - N := Nat.mod_eq_of_lt (by omega)
    rw [hmod, beq_iff_eq]
    exact land_high_mask_eq_iff x y (32 - N) hx hy (by omega)
  · intro h0
    subst h0
    have hmod : (32 - 0) % 32 = 0 := by norm_num
    rw [hmod, beq_iff_eq]
    have := land_high_mask_eq_iff x y 0 hx hy (by omega)
    simpa using this

/-- C7 witness: `10.0.0.50` against `10.0.0.0/24`. -/
theorem ipMatchesCIDR_high_bits_amended_witness :
    ipToInt "10.0.0.50".data = some 167772210 ∧
    ipToInt "10.0.0.0".data = some 167772160 ∧
    jsParseInt10 "24".data = some 24 ∧
    (ipMatchesCIDR "10.0.0.50".data ("10.0.0.0".data ++ '/' :: "24".data) = true ↔
      167772210 / 2 ^ 8 = 167772160 / 2 ^ 8) :=
  ⟨by decide, by decide, by decide,
   (ipMatchesCIDR_high_bits_amended "10.0.0.50".data "10.0.0.0".data "24".data
       167772210 167772160 24 (by decide) (by decide) (by decide) (by decide)
       (by decide) (by decide)).1 (by decide)⟩

/-! ## C1: the rate-limit threshold is strict -/

/-- Looking up the key just written by `mapSet` yields the new value. -/
theorem mapGet_mapSet_self {α : Type} (m : List (List Char × α))
    (k : List Char) (v : α) : mapGet (mapSet m k v) k = some v := by
  induction m with
  | nil => simp [mapGet, mapSet]
  | cons p rest ih =>
    obtain ⟨k', v'⟩ := p
    cases h : k' == k with
    | true => simp [mapSet, mapGet, h]
    | false =>
      simp only [mapSet, h, Bool.false_eq_true, if_false]
      simp only [mapGet, List.find?] at ih ⊢
      rw [h]
      exact ih

/-- With no temporary entry and a blocklist miss, `isIPBlocked` reports
not blocked and leaves the state unchanged. -/
theorem isIPBlocked_miss (st : FilterState) (now : Int) (ip : List Char)
    (hip : ip.isEmpty = false)
    (hblk : mapGet st.blockedIPs (cleanIp ip) = none)
    (hb : isIPInBlocklist st.blocklist ip = false) :
    isIPBlocked st now ip = (⟨false, none, none⟩, st) := by
  simp [isIPBlocked, hip, hblk, hb]

/-- `recordConnectionAttempt` below the threshold: the new timestamp is
appended, nothing is pruned (all stamps are inside the window), and no
block is installed. -/
theorem record_below_threshold (cfg : FilterConfig) (st : FilterState)
    (now : Int) (ip : List Char) (prev : List Int)
    (hen : cfg.rateLimitEnabled = true) (hip : ip.isEmpty = false)
    (hatt : (mapGet st.connectionAttempts (cleanIp ip)).getD [] = prev)
    (hkeep : ∀ x ∈ prev ++ [now], now - cfg.rateLimitWindowMs < x)
    (hc : ¬ cfg.maxConnectionsPerWindow < (prev.length : Int) + 1) :
    recordConnectionAttempt cfg st now ip =
      (false, setAttempts st (cleanIp ip) (prev ++ [now])) := by
  have hfilter : (prev ++ [now]).filter
      (fun time => decide (now - cfg.rateLimitWindowMs < time)) = prev ++ [now] :=
    List.filter_eq_self.mpr (fun a ha => decide_eq_true (hkeep a ha))
  simp [recordConnectionAttempt, setAttempts, hen, hip, hatt, hfilter, hc]

/-- `recordConnectionAttempt` at the threshold breach: the attempt list
is stored, the rate limit trips, and `blockIP` installs a temporary
block ending `rateLimitBlockDurationMs` after `now`. -/
theorem record_exceeds_threshold (cfg : FilterConfig) (st : FilterState)
    (now : Int) (ip : List Char) (prev : List Int)
    (hen : cfg.rateLimitEnabled = true) (hip : ip.isEmpty = false)
    (hatt : (mapGet st.connectionAttempts (cleanIp ip)).getD [] = prev)
    (hkeep : ∀ x ∈ prev ++ [now], now - cfg.rateLimitWindowMs < x)
    (hc : cfg.maxConnectionsPerWindow < (prev.length : Int) + 1) :
    recordConnectionAttempt cfg st now ip =
      (true, blockIP (setAttempts st (cleanIp ip) (prev ++ [now]))
        now (cleanIp ip) cfg.rateLimitBlockDurationMs
        ("Rate limit exceeded: " ++ toString (prev ++ [now]).length ++
          " connections in " ++ toString cfg.rateLimitWindowMs ++ "ms")) := by
  have hfilter : (prev ++ [now]).filter
      (fun time => decide (now - cfg.rateLimitWindowMs < time)) = prev ++ [now] :=
    List.filter_eq_self.mpr (fun a ha => decide_eq_true (hkeep a ha))
  simp [recordConnectionAttempt, setAttempts, hen, hip, hatt, hfilter, hc]

/-- One admitted call of `shouldAllowConnection` below the threshold. -/
theorem shouldAllow_step_allowed (cfg : FilterConfig) (st : FilterState)
    (now : Int) (ip : List Char) (prev : List Int)
    (hen : cfg.rateLimitEnabled = true) (hip : ip.isEmpty = false)
    (hw : isIPWhitelisted st.whitelist ip = false)
    (hb : isIPInBlocklist st.blocklist ip = false)
    (hblk : mapGet st.blockedIPs (cleanIp ip) = none)
    (hatt : (mapGet st.connectionAttempts (cleanIp ip)).getD [] = prev)
    (hkeep : ∀ x ∈ prev ++ [now], now - cfg.rateLimitWindowMs < x)
    (hc : ¬ cfg.maxConnectionsPerWindow < (prev.length : Int) + 1) :
    shouldAllowConnection cfg st now ip =
      (⟨true, false, none⟩, setAttempts st (cleanIp ip) (prev ++ [now])) := by
  simp [shouldAllowConnection, hip, hw,
        isIPBlocked_miss st now ip hip hblk hb,
        record_below_threshold cfg st now ip prev hen hip hatt hkeep hc]

/-- One denied call of `shouldAllowConnection` at the threshold breach:
the result is `{ allowed: false, reason: "Rate limit exceeded" }` and
the temporary-block entry is installed. -/
theorem shouldAllow_step_denied (cfg : FilterConfig) (st : FilterState)
    (now : Int) (ip : List Char) (prev : List Int)
    (hen : cfg.rateLimitEnabled = true) (hip : ip.isEmpty = false)
    (hw : isIPWhitelisted st.whitelist ip = false)
    (hb : isIPInBlocklist st.blocklist ip = false)
    (hblk : mapGet st.blockedIPs (cleanIp ip) = none)
    (hatt : (mapGet st.connectionAttempts (cleanIp ip)).getD [] = prev)
    (hkeep : ∀ x ∈ prev ++ [now], now - cfg.rateLimitWindowMs < x)
    (hc : cfg.maxConnectionsPerWindow < (prev.length : Int) + 1) :
    shouldAllowConnection cfg st now ip =
      (⟨false, false, some "Rate limit exceeded"⟩,
        blockIP (setAttempts st (cleanIp ip) (prev ++ [now]))
          now (cleanIp ip) cfg.rateLimitBlockDurationMs
          ("Rate limit exceeded: " ++ toString (prev ++ [now]).length ++
            " connections in " ++ toString cfg.rateLimitWindowMs ++ "ms")) := by
  simp [shouldAllowConnection, hip, hw,
        isIPBlocked_miss st now ip hip hblk hb,
        record_exceeds_threshold cfg st now ip prev hen hip hatt hkeep hc]

/-- `runFilter` distributes over list append. -/
theorem runFilter_append (cfg : FilterConfig) (ip : List Char) :
    ∀ (ts1 ts2 : List Int) (st : FilterState),
      runFilter cfg ip st (ts1 ++ ts2) =
        ((runFilter cfg ip (runFilter cfg ip st ts1).1 ts2).1,
          (runFilter cfg ip st ts1).2 ++
            (runFilter cfg ip (runFilter cfg ip st ts1).1 ts2).2) := by
  intro ts1
  induction ts1 with
  | nil => intro ts2 st; simp [runFilter]
  | cons t ts ih => intro ts2 st; simp [runFilter, ih]

/-- As long as the per-window budget is not exhausted, every call in a
run is admitted: the results are all `{ allowed: true }`, the whitelist,
blocklist and temporary-block map are untouched, and the attempt list
accumulates exactly the call timestamps. -/
theorem runFilter_all_allowed (cfg : FilterConfig) (ip : List Char) (m : Nat)
    (hen : cfg.rateLimitEnabled = true)
    (hmax : cfg.maxConnectionsPerWindow = (m : Int))
    (hip : ip.isEmpty = false) :
    ∀ (ts prev : List Int) (st : FilterState),
      isIPWhitelisted st.whitelist ip = false →
      isIPInBlocklist st.blocklist ip = false →
      mapGet st.blockedIPs (cleanIp ip) = none →
      (mapGet st.connectionAttempts (cleanIp ip)).getD [] = prev →
      (∀ x ∈ prev ++ ts, ∀ t ∈ ts, t - cfg.rateLimitWindowMs < x) →
      prev.length + ts.length ≤ m →
      (runFilter cfg ip st ts).2 =
          List.replicate ts.length ⟨true, false, none⟩ ∧
        (runFilter cfg ip st ts).1.whitelist = st.whitelist ∧
        (runFilter cfg ip st ts).1.blocklist = st.blocklist ∧
        (runFilter cfg ip st ts).1.blockedIPs = st.blockedIPs ∧
        (mapGet (runFilter cfg ip st ts).1.connectionAttempts
          (cleanIp ip)).getD [] = prev ++ ts := by
  intro ts
  induction ts with
  | nil =>
    intro prev st hw hb hblk hatt hwin hlen
    simp [runFilter, hatt]
  | cons t ts ih =>
    intro prev st hw hb hblk hatt hwin hlen
    have hkeep : ∀ x ∈ prev ++ [t], t - cfg.rateLimitWindowMs < x := by
      intro x hx
      rcases List.mem_append.mp hx with h | h
      · exact hwin x (List.mem_append.mpr (Or.inl h)) t (List.mem_cons_self t ts)
      · rw [List.mem_singleton.mp h]
        exact hwin t (List.mem_append.mpr (Or.inr (List.mem_cons_self t ts)))
          t (List.mem_cons_self t ts)
    simp only [List.length_cons] at hlen
    have hc : ¬ cfg.maxConnectionsPerWindow < (prev.length : Int) + 1 := by
      rw [hmax]
      omega
    have hstep := shouldAllow_step_allowed cfg st t ip prev hen hip hw hb hblk
      hatt hkeep hc
    have hw' : isIPWhitelisted (setAttempts st (cleanIp ip) (prev ++ [t])).whitelist ip = false := by
      simpa [setAttempts] using hw
    have hb' : isIPInBlocklist (setAttempts st (cleanIp ip) (prev ++ [t])).blocklist ip = false := by
      simpa [setAttempts] using hb
    have hblk' : mapGet (setAttempts st (cleanIp ip) (prev ++ [t])).blockedIPs (cleanIp ip) = none := by
      simpa [setAttempts] using hblk
    have hatt' : (mapGet (setAttempts st (cleanIp ip) (prev ++ [t])).connectionAttempts
        (cleanIp ip)).getD [] = prev ++ [t] := by
      simp [setAttempts, mapGet_mapSet_self]
    have hwin' : ∀ x ∈ (prev ++ [t]) ++ ts, ∀ u ∈ ts,
        u - cfg.rateLimitWindowMs < x := by
      intro x hx u hu
      have hx' : x ∈ prev ++ (t :: ts) := by
        simpa [List.append_assoc] using hx
      exact hwin x hx' u (List.mem_cons_of_mem t hu)
    have hlen' : (prev ++ [t]).length + ts.length ≤ m := by
      simp only [List.length_append, List.length_cons, List.length_nil]
      omega
    obtain ⟨r1, r2, r3, r4, r5⟩ :=
      ih (prev ++ [t]) (setAttempts st (cleanIp ip) (prev ++ [t]))
        hw' hb' hblk' hatt' hwin' hlen'
    refine ⟨?_, ?_, ?_, ?_, ?_⟩
    · simp [runFilter, hstep, r1, List.replicate_succ]
    · simp only [runFilter, hstep]
      rw [r2]
      simp [setAttempts]
    · simp only [runFilter, hstep]
      rw [r3]
      simp [setAttempts]
    · simp only [runFilter, hstep]
      rw [r4]
      simp [setAttempts]
    · simp only [runFilter, hstep]
      rw [r5, List.append_assoc]
      simp

/-- C1: for an IP that is not whitelisted, not in the blocklist, has no
temporary-block entry and no recorded attempts, with rate limiting
enabled and `maxConnectionsPerWindow = m`: the first `m` calls of
`shouldAllowConnection` whose timestamps all lie within one
`rateLimitWindowMs` window are admitted, and the `(m+1)`-th call in
the same window is denied with reason `"Rate limit exceeded"` and
installs a temporary block lasting `rateLimitBlockDurationMs` from the
time of that call (the threshold comparison is strict `>`). -/
theorem rate_limit_strict_threshold (cfg : FilterConfig)
    (st0 : FilterState) (ip : List Char) (m : Nat) (ts : List Int) (tF : Int)
    (hen : cfg.rateLimitEnabled = true)
    (hmax : cfg.maxConnectionsPerWindow = (m : Int))
    (hip : ip.isEmpty = false)
    (hclean : startsWithMapped (cleanIp ip) = false)
    (hw : isIPWhitelisted st0.whitelist ip = false)
    (hb : isIPInBlocklist st0.blocklist ip = false)
    (hblk : mapGet st0.blockedIPs (cleanIp ip) = none)
    (hatt : (mapGet st0.connectionAttempts (cleanIp ip)).getD [] = [])
    (hlen : ts.length = m)
    (hwin : ∀ x ∈ ts ++ [tF], ∀ t ∈ ts ++ [tF],
      t - cfg.rateLimitWindowMs < x) :
    (runFilter cfg ip st0 (ts ++ [tF])).2 =
      List.replicate m ⟨true, false, none⟩ ++
        [⟨false, false, some "Rate limit exceeded"⟩] ∧
    mapGet (runFilter cfg ip st0 (ts ++ [tF])).1.blockedIPs (cleanIp ip) =
      some ⟨tF + cfg.rateLimitBlockDurationMs,
        "Rate limit exceeded: " ++ toString (m + 1) ++ " connections in " ++
          toString cfg.rateLimitWindowMs ++ "ms", tF⟩ := by
  have hwin1 : ∀ x ∈ ([] : List Int) ++ ts, ∀ t ∈ ts,
      t - cfg.rateLimitWindowMs < x := by
    intro x hx t ht
    exact hwin x (List.mem_append.mpr (Or.inl (by simpa using hx)))
      t (List.mem_append.mpr (Or.inl ht))
  have hlen1 : ([] : List Int).length + ts.length ≤ m := by simp [hlen]
  obtain ⟨r1, r2, r3, r4, r5⟩ :=
    runFilter_all_allowed cfg ip m hen hmax hip ts [] st0 hw hb hblk hatt
      hwin1 hlen1
  have hw1 : isIPWhitelisted (runFilter cfg ip st0 ts).1.whitelist ip = false := by
    rw [r2]; exact hw
  have hb1 : isIPInBlocklist (runFilter cfg ip st0 ts).1.blocklist ip = false := by
    rw [r3]; exact hb
  have hblk1 : mapGet (runFilter cfg ip st0 ts).1.blockedIPs (cleanIp ip) = none := by
    rw [r4]; exact hblk
  have hatt1 : (mapGet (runFilter cfg ip st0 ts).1.connectionAttempts
      (cleanIp ip)).getD [] = ts := by
    rw [r5]; simp
  have hkeep : ∀ x ∈ ts ++ [tF], tF - cfg.rateLimitWindowMs < x := by
    intro x hx
    exact hwin x hx tF (List.mem_append.mpr (Or.inr (List.mem_singleton_self tF)))
  have hc : cfg.maxConnectionsPerWindow < (ts.length : Int) + 1 := by
    rw [hmax, hlen]
    omega
  have hstep := shouldAllow_step_denied cfg (runFilter cfg ip st0 ts).1 tF ip ts
    hen hip hw1 hb1 hblk1 hatt1 hkeep hc
  rw [runFilter_append]
  constructor
  · simp [r1, runFilter, hstep, hlen]
  · simp only [runFilter, hstep]
    simp [blockIP, setAttempts, cleanIp_eq_self_of_no_marker hclean,
      mapGet_mapSet_self, List.length_append, hlen]

/-- C1 witness: limit 2, window 1000 ms; calls at t = 0, 1 are admitted
and the third call at t = 2 is denied and blocked until t = 5002. -/
theorem rate_limit_strict_threshold_witness :
    (runFilter ⟨true, 2, 1000, 5000⟩ "1.2.3.4".data ⟨[], [], [], []⟩
        ([0, 1] ++ [2])).2 =
      List.replicate 2 ⟨true, false, none⟩ ++
        [⟨false, false, some "Rate limit exceeded"⟩] ∧
    mapGet (runFilter ⟨true, 2, 1000, 5000⟩ "1.2.3.4".data ⟨[], [], [], []⟩
        ([0, 1] ++ [2])).1.blockedIPs (cleanIp "1.2.3.4".data) =
      some ⟨5002, "Rate limit exceeded: 3 connections in 1000ms", 2⟩ :=
  rate_limit_strict_threshold ⟨true, 2, 1000, 5000⟩ ⟨[], [], [], []⟩
    "1.2.3.4".data 2 [0, 1] 2 (by decide) (by decide) (by decide) (by decide)
    (by decide) (by decide) (by decide) (by decide) (by decide) (by decide)
